import Mathlib

/-!
Verification development for the Premium Exchanger API client
(`exchanger_api.py`).  The Python module is shallowly embedded: JSON
values become the inductive `JVal`, the dynamically-typed helpers of the
client become total Lean functions over `JVal`, and the HTTP layer is
modelled by an environment that maps a method name and its form
parameters to the decoded JSON response, together with an explicit log
of the requests issued.
-/

/-- A decoded JSON value as handled by the Python client.  Python dicts
are modelled as association lists in insertion order, which matches the
iteration order of Python dictionaries. -/
inductive JVal where
  | jnull : JVal
  | jbool : Bool → JVal
  | jint : Int → JVal
  | jstr : String → JVal
  | jlist : List JVal → JVal
  | jobj : List (String × JVal) → JVal

mutual
/-- Python `repr` for the embedded values (string escaping inside
`repr` of strings is not reproduced; the payloads of interest contain no
quotes). -/
def pyRepr : JVal → String
  | .jnull => "None"
  | .jbool b => cond b "True" "False"
  | .jint n => toString n
  | .jstr s => "\x27" ++ s ++ "\x27"
  | .jlist xs => "[" ++ joinComma (pyReprList xs) ++ "]"
  | .jobj kvs => "\x7b" ++ joinComma (pyReprPairs kvs) ++ "\x7d"

def pyReprList : List JVal → List String
  | [] => []
  | x :: xs => pyRepr x :: pyReprList xs

def pyReprPairs : List (String × JVal) → List String
  | [] => []
  | (k, v) :: xs => ("\x27" ++ k ++ "\x27: " ++ pyRepr v) :: pyReprPairs xs

def joinComma : List String → String
  | [] => ""
  | [x] => x
  | x :: y :: xs => x ++ ", " ++ joinComma (y :: xs)
end

/-- Python `str()`: identity on strings, `repr` otherwise (the scalar
cases of `repr` coincide with `str`). -/
def pyStr : JVal → String
  | .jstr s => s
  | v => pyRepr v

/-- First-match association-list lookup, i.e. Python `d[k]` / `k in d`
for dictionaries (keys are unique in a Python dict, so first match is
exact). -/
def lookupKey {β : Type} : List (String × β) → String → Option β
  | [], _ => none
  | (k, v) :: rest, key => if k = key then some v else lookupKey rest key

/-- Python `d.get(k, default)` on a decoded value.  Calling `.get` on a
non-dict raises in Python; such payloads are outside the well-formed
domain and here yield the default. -/
def jget (v : JVal) (k : String) (d : JVal) : JVal :=
  match v with
  | .jobj kvs => (lookupKey kvs k).getD d
  | _ => d

/-- Python `d.get(k, default)` when the call site treats the result as a
string.  Non-string values would raise downstream in Python; they are
outside the well-formed domain and yield the default here. -/
def jgetStr (v : JVal) (k d : String) : String :=
  match jget v k (.jstr d) with
  | .jstr s => s
  | _ => d

/-- `jgetStr` specialised to an association list (for `api_actions`). -/
def objGetStr (kvs : List (String × JVal)) (k d : String) : String :=
  match lookupKey kvs k with
  | some (.jstr s) => s
  | _ => d

/-- `needle` is a prefix of `hay` (on character lists). -/
def charsHasPre : List Char → List Char → Bool
  | _, [] => true
  | [], _ :: _ => false
  | a :: as, b :: bs => (a == b) && charsHasPre as bs

/-- `needle` occurs contiguously inside `hay` (on character lists). -/
def charsContains : List Char → List Char → Bool
  | [], needle => needle.isEmpty
  | a :: as, needle => charsHasPre (a :: as) needle || charsContains as needle

/-- Python `needle in hay` on strings: contiguous substring test. -/
def strContains (hay needle : String) : Bool :=
  charsContains hay.data needle.data

/-- Python `s.startswith(pre)`. -/
def pyStartsWith (s pre : String) : Bool :=
  charsHasPre s.data pre.data

/-- ASCII lower-casing of one character (the classification phrases are
ASCII; non-ASCII characters pass through unchanged). -/
def charLower (c : Char) : Char :=
  if 'A' ≤ c ∧ c ≤ 'Z' then Char.ofNat (c.toNat + 32) else c

/-- Python `s.lower()` (ASCII range). -/
def pyLower (s : String) : String := ⟨s.data.map charLower⟩

/-- Python `s.strip()`: drop leading and trailing whitespace. -/
def pyTrim (s : String) : String :=
  ⟨((s.data.dropWhile Char.isWhitespace).reverse.dropWhile Char.isWhitespace).reverse⟩

/-- Python `", ".join`-style concatenation. -/
def joinWith (sep : String) : List String → String
  | [] => ""
  | [x] => x
  | x :: y :: xs => x ++ sep ++ joinWith sep (y :: xs)

/-- Tokenizer for Python `s.split()`: accumulate non-whitespace runs. -/
def wsSplitAux : List Char → List Char → List (List Char)
  | [], acc => if acc.isEmpty then [] else [acc.reverse]
  | c :: cs, acc =>
    if Char.isWhitespace c then
      if acc.isEmpty then wsSplitAux cs [] else acc.reverse :: wsSplitAux cs []
    else wsSplitAux cs (c :: acc)

/-- Python `s.split()`: split on whitespace runs, dropping empty
tokens. -/
def pySplitWs (s : String) : List String :=
  (wsSplitAux s.data []).map fun cs => ⟨cs⟩

/-- The exception taxonomy of the client (`ExchangerAPIError`
subclasses), each carrying the constructor arguments used in the
source. -/
inductive ApiErr where
  | networkError (message : String) (method : String)
  | apiResponseError (message : String) (error_code : Option String) (method : String)
  | directionNotFoundError (message : String) (error_code : Option String) (method : String)
  | bidNotFoundError (message : String) (error_code : Option String) (method : String)
  | methodNotSupportedError (message : String) (error_code : Option String) (method : String)
  | validationError (message : String)
  | paymentNotAvailableError (message : String)
  | cancelNotAvailableError (message : String)
  deriving DecidableEq

/-- Message of the `DirectionNotFoundError` branch of `_request`. -/
def directionNotFoundMessage : String :=
  "Направление не найдено или не разрешено для API. Проверьте настройки направления → Ограничения и проверки → API"

/-- Message of the `MethodNotSupportedError` branch of `_request`. -/
def methodNotSupportedMessage (method : String) : String :=
  "Метод \x27" ++ method ++ "\x27 не активирован для данного API-ключа"

/-- Message of the `BidNotFoundError` branch of `_request`. -/
def bidNotFoundMessage : String := "Заявка не найдена"

/-- Message of the `api disabled` branch of `_request`. -/
def apiDisabledMessage : String :=
  "API отключён. Проверьте настройки модуля API и данные авторизации"

/-- Fallback message of `_request` when the error text is empty. -/
def unknownErrorMessage (error_val : String) : String :=
  "Неизвестная ошибка (code=" ++ error_val ++ ")"

/-- The if/elif classification chain of `_request` on a business
failure: the stripped error text is lower-cased and substring-matched
against the known phrases in source order; no match falls back to a
generic `APIResponseError` carrying the raw text (or a code message when
the text is empty) and the error code. -/
def classifyError (method error_val error_text : String) : ApiErr :=
  let error_lower := pyLower error_text
  if strContains error_lower "direction not found" then
    .directionNotFoundError directionNotFoundMessage (some error_val) method
  else if strContains error_lower "method not supported" then
    .methodNotSupportedError (methodNotSupportedMessage method) (some error_val) method
  else if strContains error_lower "no bid exists" then
    .bidNotFoundError bidNotFoundMessage (some error_val) method
  else if strContains error_lower "api disabled" then
    .apiResponseError apiDisabledMessage (some error_val) method
  else
    .apiResponseError
      (if error_text = "" then unknownErrorMessage error_val else error_text)
      (some error_val) method

/-- Envelope unwrapping at the end of `_request`: the value of the
`data` key when the payload is a dict containing one, otherwise the
payload itself. -/
def extractData : JVal → JVal
  | .jobj kvs => (lookupKey kvs "data").getD (.jobj kvs)
  | d => d

/-- The post-parse portion of `ExchangerAPI._request`: business-error
detection (`str(data["error"]) != "0"`), classification, and envelope
unwrapping. -/
def checkError (method : String) (data : JVal) : Except ApiErr JVal :=
  match data with
  | .jobj kvs =>
    match lookupKey kvs "error" with
    | some ev =>
      let error_val := pyStr ev
      if error_val = "0" then .ok (extractData (.jobj kvs))
      else
        .error (classifyError method error_val
          (pyTrim (pyStr (jget (.jobj kvs) "error_text" (.jstr "")))))
    | none => .ok (extractData (.jobj kvs))
  | d => .ok (extractData d)

/-- `ExchangerAPI._normalize_fields`: a dict normalizes to its list of
values, a list is returned unchanged, anything else becomes `[]`. -/
def normalizeFields : JVal → List JVal
  | .jobj kvs => kvs.map Prod.snd
  | .jlist xs => xs
  | _ => []

/-- `ExchangerAPI._is_required` / the `required_fields` filter:
`str(field.get("req", "0")) == "1"`. -/
def fieldReq (f : JVal) : Bool :=
  pyStr (jget f "req" (.jstr "0")) == "1"

/-- `BidResult`: one exchange order as reported upstream.  Fields the
source wraps in `str()` are `String`; the rest keep their decoded
value. -/
structure BidResult where
  id : String
  hash : JVal
  url : JVal
  status : String
  status_title : JVal
  amount_give : String
  amount_get : String
  currency_give : JVal
  currency_get : JVal
  api_actions : List (String × JVal)
  raw : JVal

/-- `BidResult.payment_url`: the `pay` capability when it is an HTTP
link. -/
def BidResult.payment_url (b : BidResult) : Option String :=
  let pay := objGetStr b.api_actions "pay" ""
  if pyStartsWith pay "http" then some pay else none

/-- `BidResult.can_pay_via_api`: `api_actions.get("pay") == "api"`. -/
def BidResult.can_pay_via_api (b : BidResult) : Bool :=
  match lookupKey b.api_actions "pay" with
  | some (.jstr s) => s == "api"
  | _ => false

/-- `BidResult.can_cancel_via_api`: `api_actions.get("cancel") == "api"`. -/
def BidResult.can_cancel_via_api (b : BidResult) : Bool :=
  match lookupKey b.api_actions "cancel" with
  | some (.jstr s) => s == "api"
  | _ => false

/-- `BidResult.cancel_url`: the `cancel` capability when it is an HTTP
link. -/
def BidResult.cancel_url (b : BidResult) : Option String :=
  let cancel := objGetStr b.api_actions "cancel" ""
  if pyStartsWith cancel "http" then some cancel else none

/-- `CalcResult`: output of the amount calculator. -/
structure CalcResult where
  sum_give : JVal
  sum_give_com : JVal
  sum_get : JVal
  sum_get_com : JVal
  currency_give : JVal
  currency_get : JVal
  course_give : JVal
  course_get : JVal
  reserve : JVal
  com_give : JVal
  com_get : JVal
  min_give : JVal
  max_give : JVal
  min_get : JVal
  max_get : JVal
  changed : Bool
  raw : JVal

/-- `DirectionInfo`: detail of one exchange direction. -/
structure DirectionInfo where
  id : String
  url : JVal
  currency_give : JVal
  currency_get : JVal
  course_give : JVal
  course_get : JVal
  reserve : JVal
  min_give : JVal
  max_give : JVal
  min_get : JVal
  max_get : JVal
  give_fields : List JVal
  get_fields : List JVal
  dir_fields : List JVal
  info : JVal
  raw : JVal

/-- `DirectionInfo.all_fields`: give + get + dir field groups. -/
def DirectionInfo.all_fields (d : DirectionInfo) : List JVal :=
  d.give_fields ++ d.get_fields ++ d.dir_fields

/-- `DirectionInfo.required_fields`: fields whose `req` flag stringifies
to `"1"`. -/
def DirectionInfo.required_fields (d : DirectionInfo) : List JVal :=
  d.all_fields.filter fieldReq

/-- `DirectionInfo.optional_fields`: fields whose `req` flag does not
stringify to `"1"`. -/
def DirectionInfo.optional_fields (d : DirectionInfo) : List JVal :=
  d.all_fields.filter (fun f => !fieldReq f)

/-- `DirectionInfo.validate_fields`: names of required fields that are
absent from the user mapping or mapped to an empty value, in field
order. -/
def DirectionInfo.validate_fields (d : DirectionInfo)
    (user_fields : List (String × String)) : List String :=
  d.required_fields.filterMap fun f =>
    let name := jgetStr f "name" ""
    match lookupKey user_fields name with
    | none => some name
    | some v => if v = "" then some name else none

/-- Form parameters of one request, in insertion order. -/
abbrev Params := List (String × JVal)

/-- One logged HTTP request: method name and form parameters. -/
abbrev Req := String × Option Params

/-- The network, abstracted: decoded JSON response for a method and its
parameters. -/
abbrev Env := String → Option Params → JVal

/-- A client computation: given the network, produce a result or a
typed error, together with the ordered log of requests issued. -/
def M (α : Type) : Type := Env → Except ApiErr α × List Req

/-- Computation returning a value, issuing no request. -/
def mPure {α : Type} (a : α) : M α := fun _ => (.ok a, [])

/-- Computation raising a typed error, issuing no request. -/
def mThrow {α : Type} (e : ApiErr) : M α := fun _ => (.error e, [])

/-- Sequencing: on success continue, on error stop; request logs
concatenate. -/
def mBind {α β : Type} (x : M α) (f : α → M β) : M β := fun env =>
  match x env with
  | (.ok a, l) => ((f a env).1, l ++ (f a env).2)
  | (.error e, l) => (.error e, l)

/-- One call of the transport primitive `_request`: issue the request,
then run business-error detection and envelope unwrapping on the decoded
response. -/
def mRequest (method : String) (params : Option Params) : M JVal :=
  fun env => (checkError method (env method params), [(method, params)])

/-- The `action_map` of `calculate` / `create_bid`:
`{"give": 1, "get": 2, "give_com": 3, "get_com": 4}`. -/
def actionMap (action : String) : Option Int :=
  if action = "give" then some 1
  else if action = "get" then some 2
  else if action = "give_com" then some 3
  else if action = "get_com" then some 4
  else none

/-- `ValidationError` message for an action outside `action_map`. -/
def invalidActionMessage (action : String) : String :=
  "Недопустимое значение action=\x27" ++ action ++
    "\x27. Допустимые: [\x27give\x27, \x27get\x27, \x27give_com\x27, \x27get_com\x27]"

/-- Python truthiness of an optional string argument (`if api_id:`). -/
def truthyOptStr : Option String → Bool
  | none => false
  | some s => s ≠ ""

/-- Append `key: value` to the form parameters when the optional string
is truthy (Python `if v: params[key] = v`). -/
def addIfTruthy (params : Params) (key : String) (v : Option String) : Params :=
  match v with
  | some s => if s = "" then params else params ++ [(key, .jstr s)]
  | none => params

/-- Python `dict.update`: existing keys keep their position with the new
value, new keys are appended in update order. -/
def dictUpdate (base upd : Params) : Params :=
  base.map (fun kv =>
    match lookupKey upd kv.1 with
    | some v => (kv.1, v)
    | none => kv)
  ++ upd.filter (fun kv => (lookupKey base kv.1).isNone)

/-- Outgoing form parameters of `calculate`. -/
def calcParams (direction_id amount : JVal) (calc_action : Int)
    (cd : Option String) : Params :=
  let params : Params :=
    [("direction_id", .jstr (pyStr direction_id)),
     ("calc_amount", amount),
     ("calc_action", .jint calc_action)]
  match cd with
  | some c => params ++ [("cd", .jstr c)]
  | none => params

/-- Mapping of the `get_calc` payload into a `CalcResult`
(`changed` is `str(data.get("changed", "0")) == "1"`). -/
def buildCalcResult (data : JVal) : CalcResult where
  sum_give := jget data "sum_give" (.jstr "")
  sum_give_com := jget data "sum_give_com" (.jstr "")
  sum_get := jget data "sum_get" (.jstr "")
  sum_get_com := jget data "sum_get_com" (.jstr "")
  currency_give := jget data "currency_code_give" (.jstr "")
  currency_get := jget data "currency_code_get" (.jstr "")
  course_give := jget data "course_give" (.jstr "")
  course_get := jget data "course_get" (.jstr "")
  reserve := jget data "reserve" (.jstr "")
  com_give := jget data "com_give" (.jstr "")
  com_get := jget data "com_get" (.jstr "")
  min_give := jget data "min_give" (.jstr "no")
  max_give := jget data "max_give" (.jstr "no")
  min_get := jget data "min_get" (.jstr "no")
  max_get := jget data "max_get" (.jstr "no")
  changed := pyStr (jget data "changed" (.jstr "0")) == "1"
  raw := data

/-- `ExchangerAPI.calculate`: validate the action locally, then issue
one `get_calc` request and map the payload. -/
def calculate (direction_id amount : JVal) (action : String)
    (cd : Option String) : M CalcResult :=
  match actionMap action with
  | none => mThrow (.validationError (invalidActionMessage action))
  | some calc_action =>
    mBind (mRequest "get_calc" (some (calcParams direction_id amount calc_action cd)))
      fun data => mPure (buildCalcResult data)

/-- Mapping of a bid payload (`create_bid` / `bid_info`) into a
`BidResult`. -/
def buildBidResult (data : JVal) : BidResult where
  id := pyStr (jget data "id" (.jstr ""))
  hash := jget data "hash" (.jstr "")
  url := jget data "url" (.jstr "")
  status := pyStr (jget data "status" (.jstr ""))
  status_title := jget data "status_title" (.jstr "")
  amount_give := pyStr (jget data "amount_give" (.jstr ""))
  amount_get := pyStr (jget data "amount_get" (.jstr ""))
  currency_give := jget data "currency_code_give" (.jstr "")
  currency_get := jget data "currency_code_get" (.jstr "")
  api_actions :=
    match jget data "api_actions" (.jobj []) with
    | .jobj kvs => kvs
    | _ => []
  raw := data

/-- Outgoing form parameters of `create_bid`. -/
def createBidParams (direction_id amount : JVal) (calc_action : Int)
    (fields : List (String × String)) (api_id : Option String)
    (partner_id : Option Int) (callback_url : Option String) : Params :=
  let params : Params :=
    [("direction_id", .jstr (pyStr direction_id)),
     ("calc_amount", amount),
     ("calc_action", .jint calc_action)]
  let params := addIfTruthy params "api_id" api_id
  let params :=
    match partner_id with
    | some p => params ++ [("partner_id", .jint p)]
    | none => params
  let params := addIfTruthy params "callback_url" callback_url
  dictUpdate params (fields.map fun kv => (kv.1, .jstr kv.2))

/-- `ExchangerAPI.create_bid`: validate the action locally, then issue
one `create_bid` request and map the payload. -/
def createBid (direction_id amount : JVal) (fields : List (String × String))
    (action : String) (api_id : Option String) (partner_id : Option Int)
    (callback_url : Option String) : M BidResult :=
  match actionMap action with
  | none => mThrow (.validationError (invalidActionMessage action))
  | some calc_action =>
    mBind (mRequest "create_bid"
        (some (createBidParams direction_id amount calc_action fields api_id
          partner_id callback_url)))
      fun data => mPure (buildBidResult data)

/-- `ExchangerAPI.get_bid_status`: require hash or id locally, then
issue one `bid_info` request. -/
def getBidStatus (hash bid_id : Option String) : M BidResult :=
  if !truthyOptStr hash && !truthyOptStr bid_id then
    mThrow (.validationError "Нужно указать hash или bid_id")
  else
    let params := addIfTruthy (addIfTruthy [] "hash" hash) "id" bid_id
    mBind (mRequest "bid_info" (some params)) fun data =>
      mPure (buildBidResult data)

/-- Mapping of the `get_direction` payload into a `DirectionInfo`:
field groups normalized, min/max bounds defaulting to `"no"`. -/
def buildDirectionInfo (data : JVal) : DirectionInfo where
  id := pyStr (jget data "id" (.jstr ""))
  url := jget data "url" (.jstr "")
  currency_give := jget data "currency_code_give" (.jstr "")
  currency_get := jget data "currency_code_get" (.jstr "")
  course_give := jget data "course_give" (.jstr "")
  course_get := jget data "course_get" (.jstr "")
  reserve := jget data "reserve" (.jstr "")
  min_give := jget data "min_give" (.jstr "no")
  max_give := jget data "max_give" (.jstr "no")
  min_get := jget data "min_get" (.jstr "no")
  max_get := jget data "max_get" (.jstr "no")
  give_fields := normalizeFields (jget data "give_fields" (.jlist []))
  get_fields := normalizeFields (jget data "get_fields" (.jlist []))
  dir_fields := normalizeFields (jget data "dir_fields" (.jlist []))
  info := jget data "info" (.jobj [])
  raw := data

/-- `ExchangerAPI.get_direction`: one `get_direction` request mapped by
`buildDirectionInfo`. -/
def getDirection (direction_id : JVal) : M DirectionInfo :=
  mBind (mRequest "get_direction" (some [("direction_id", .jstr (pyStr direction_id))]))
    fun data => mPure (buildDirectionInfo data)

/-- The direction-matching predicate of `find_direction`: the entry is a
dict, the give query is a substring of the lower-cased give title, and
every whitespace token of the get query is a substring of the
lower-cased get title. -/
def directionMatches (currency_give currency_get : String) (d : JVal) : Bool :=
  match d with
  | .jobj kvs =>
    let give_title := pyLower (objGetStr kvs "currency_give_title" "")
    let get_title := pyLower (objGetStr kvs "currency_get_title" "")
    strContains give_title (pyLower currency_give)
      && (pySplitWs (pyLower currency_get)).all fun kw => strContains get_title kw
  | _ => false

/-- The linear scan of `ExchangerAPI.find_direction` over an
already-fetched directions list: first match in list order, or none. -/
def findDirection (directions : List JVal) (currency_give currency_get : String) :
    Option JVal :=
  directions.find? (directionMatches currency_give currency_get)

/-- `ExchangerAPI.pay_bid`: one `pay_bid` request. -/
def payBid (hash : JVal) : M JVal :=
  mRequest "pay_bid" (some [("hash", hash)])

/-- `PaymentNotAvailableError` message when a merchant payment URL
exists. -/
def payUnavailableMerchantMessage (u : String) : String :=
  "Оплата через API недоступна — используется мерчант. Пользователь должен оплатить по ссылке: "
    ++ u ++ ". Статус обновится автоматически после поступления средств."

/-- Python `str()` of an `Optional` value interpolated into an
f-string. -/
def pyStrOfOption : Option JVal → String
  | none => "None"
  | some v => pyStr v

/-- `PaymentNotAvailableError` message when no payment path exists. -/
def payUnavailableNoPathMessage (pay : Option JVal) : String :=
  "Оплата через API недоступна. api_actions.pay = \x27" ++ pyStrOfOption pay ++ "\x27"

/-- `ExchangerAPI.safe_pay`: guard on the capability map, raising
locally when pay is not `"api"`, otherwise calling `pay_bid`. -/
def safePay (bid : BidResult) : M JVal :=
  if !bid.can_pay_via_api then
    match bid.payment_url with
    | some u => mThrow (.paymentNotAvailableError (payUnavailableMerchantMessage u))
    | none =>
      mThrow (.paymentNotAvailableError
        (payUnavailableNoPathMessage (lookupKey bid.api_actions "pay")))
  else
    payBid bid.hash

/-- Python `str()` of the list of `name (label)` descriptions of the
required fields, as interpolated into the `ValidationError` message of
`full_exchange`. -/
def requiredFieldsRepr (reqs : List JVal) : String :=
  "[" ++ joinWith ", "
    (reqs.map fun f =>
      "\x27" ++ jgetStr f "name" "" ++ " (" ++ jgetStr f "label" "" ++ ")\x27")
    ++ "]"

/-- The `ValidationError` message of `full_exchange` for missing
required fields. -/
def validationMsg (missing : List String) (reqs : List JVal) : String :=
  "Не заполнены обязательные поля: " ++ joinWith ", " missing ++
    ". Все обязательные поля: " ++ requiredFieldsRepr reqs

/-- `ExchangerAPI.full_exchange`: calculate, then (optionally) fetch the
direction detail and validate the required fields, then create the
bid. -/
def fullExchange (direction_id amount : JVal) (fields : List (String × String))
    (action : String) (api_id callback_url : Option String)
    (validate : Bool) : M BidResult :=
  mBind (calculate direction_id amount action none) fun _calc =>
    if validate then
      mBind (getDirection direction_id) fun direction =>
        let missing := direction.validate_fields fields
        if missing.isEmpty then
          createBid direction_id amount fields action api_id none callback_url
        else
          mThrow (.validationError (validationMsg missing direction.required_fields))
    else
      createBid direction_id amount fields action api_id none callback_url

/-- Whether a transport-level result is a local `ValidationError`. -/
def isValidationResult : Except ApiErr BidResult → Bool
  | .error (.validationError _) => true
  | _ => false

/-- Direction-detail payload with two required fields (`account1`,
`account2`) and one optional field, used as a concrete network
response. -/
def dirDataMissing : JVal :=
  .jobj [("id", .jint 7),
    ("give_fields", .jobj [
      ("account1", .jobj [("name", .jstr "account1"), ("label", .jstr "Card"),
        ("req", .jint 1)]),
      ("account2", .jobj [("name", .jstr "account2"), ("label", .jstr "Wallet"),
        ("req", .jstr "1")])]),
    ("dir_fields", .jlist [.jobj [("name", .jstr "email"), ("req", .jstr "0")]])]

/-- A network answering `get_calc` and `get_direction` successfully,
with `dirDataMissing` as the direction detail. -/
def envMissingFields : Env := fun method _ =>
  if method = "get_calc" then
    .jobj [("error", .jint 0), ("data", .jobj [("changed", .jstr "0")])]
  else if method = "get_direction" then
    .jobj [("error", .jstr "0"), ("data", dirDataMissing)]
  else .jnull

/-- `charsHasPre hay needle` decides the prefix relation. -/
theorem charsHasPre_iff : ∀ (hay needle : List Char),
    charsHasPre hay needle = true ↔ needle <+: hay
  | _, [] => by simp [charsHasPre]
  | [], _ :: _ => by simp [charsHasPre]
  | a :: as, b :: bs => by
    simp only [charsHasPre, Bool.and_eq_true, beq_iff_eq, List.cons_prefix_cons,
      charsHasPre_iff as bs]
    exact and_congr_left fun _ => eq_comm

/-- `charsContains hay needle` decides the contiguous-substring
relation. -/
theorem charsContains_iff : ∀ (hay needle : List Char),
    charsContains hay needle = true ↔ needle <:+: hay
  | [], needle => by simp [charsContains, List.infix_nil, List.isEmpty_iff]
  | a :: as, needle => by
    simp [charsContains, List.infix_cons_iff, charsHasPre_iff,
      charsContains_iff as needle]

/-- A string whose characters occur contiguously in another is contained
in it. -/
theorem strContains_of_infix {x y : String} (h : x.data <:+: y.data) :
    strContains y x = true :=
  (charsContains_iff _ _).mpr h

/-- Every element of a joined list occurs contiguously in the join. -/
theorem infix_joinWith (sep : String) : ∀ (l : List String) (x : String),
    x ∈ l → x.data <:+: (joinWith sep l).data
  | [], x, hx => by simp at hx
  | [y], x, hx => by
    obtain rfl : x = y := by simpa using hx
    simp [joinWith, List.infix_refl]
  | y :: z :: t, x, hx => by
    rcases List.mem_cons.mp hx with rfl | hx'
    · refine List.IsPrefix.isInfix ?_
      simp only [joinWith, String.data_append]
      exact (List.prefix_append _ _).trans (List.prefix_append _ _)
    · have ih := infix_joinWith sep (z :: t) x hx'
      refine ih.trans (List.IsSuffix.isInfix ?_)
      simp only [joinWith, String.data_append]
      exact (List.suffix_append _ _)

/-- `classifyError` never produces a `validationError`. -/
theorem classifyError_ne_validation (m a b s : String) :
    classifyError m a b ≠ .validationError s := by
  simp only [classifyError]
  split
  · exact fun h => ApiErr.noConfusion h
  · split
    · exact fun h => ApiErr.noConfusion h
    · split
      · exact fun h => ApiErr.noConfusion h
      · split
        · exact fun h => ApiErr.noConfusion h
        · exact fun h => ApiErr.noConfusion h

/-- `checkError` never fails with a `validationError`. -/
theorem checkError_ne_validation (m : String) (d : JVal) (s : String) :
    checkError m d ≠ .error (.validationError s) := by
  simp only [checkError]
  split
  · split
    · split
      · simp
      · intro h
        injection h with h'
        exact classifyError_ne_validation _ _ _ _ h'
    · simp
  · simp

/-- Every request issued by `calculate` is a `get_calc` request. -/
theorem calculate_log (did amt : JVal) (act : String) (cd : Option String)
    (env : Env) : ∀ r ∈ (calculate did amt act cd env).2, r.1 = "get_calc" := by
  intro r hr
  unfold calculate at hr
  cases ha : actionMap act with
  | none => rw [ha] at hr; simp [mThrow] at hr
  | some n =>
    rw [ha] at hr
    simp only [mBind, mRequest, mPure] at hr
    rcases hck : checkError "get_calc" (env "get_calc" (some (calcParams did amt n cd)))
      with e | v <;> rw [hck] at hr <;> simp at hr <;> simp [hr]

/-- Every request issued by `getDirection` is a `get_direction`
request. -/
theorem getDirection_log (did : JVal) (env : Env) :
    ∀ r ∈ (getDirection did env).2, r.1 = "get_direction" := by
  intro r hr
  unfold getDirection at hr
  simp only [mBind, mRequest, mPure] at hr
  rcases hck : checkError "get_direction" (env "get_direction" (some [("direction_id", .jstr (pyStr did))]))
    with e | v <;> rw [hck] at hr <;> simp at hr <;> simp [hr]

/-- `find?` returns the first element satisfying the predicate. -/
theorem find?_first {α : Type} (p : α → Bool) :
    ∀ (l : List α) (d : α), l.find? p = some d →
      p d = true ∧ ∃ pre post, l = pre ++ d :: post ∧ ∀ x ∈ pre, p x = false
  | [], d, h => by simp at h
  | a :: t, d, h => by
    by_cases hp : p a = true
    · rw [List.find?_cons_of_pos t hp] at h
      obtain rfl : a = d := Option.some.inj h
      exact ⟨hp, [], t, rfl, by simp⟩
    · rw [List.find?_cons_of_neg t hp] at h
      obtain ⟨hd, pre, post, rfl, hpre⟩ := find?_first p t d h
      refine ⟨hd, a :: pre, post, rfl, ?_⟩
      intro x hx
      rcases List.mem_cons.mp hx with rfl | hx'
      · exact Bool.not_eq_true _ ▸ (by simpa using hp)
      · exact hpre x hx'

/-- C1: for every decoded payload that is a keyed map containing an
`error` key, the transport primitive succeeds if and only if the `error`
value converted to text equals `"0"` (so integer `0` and string `"0"`
are both success, `1` and `"1"` both failures), and for any other
`error` value it produces an error and never returns a payload. -/
theorem transport_success_iff_error_str_zero
    (method : String) (kvs : List (String × JVal)) (v : JVal)
    (h : lookupKey kvs "error" = some v) :
    ((∃ p, checkError method (.jobj kvs) = .ok p) ↔ pyStr v = "0")
    ∧ (pyStr v ≠ "0" → ∃ e, checkError method (.jobj kvs) = .error e)
    ∧ pyStr (.jint 0) = "0" ∧ pyStr (.jstr "0") = "0"
    ∧ pyStr (.jint 1) = "1" ∧ pyStr (.jstr "1") = "1" := by
  have hck : checkError method (.jobj kvs)
      = if pyStr v = "0" then .ok (extractData (.jobj kvs))
        else .error (classifyError method (pyStr v)
          (pyTrim (pyStr (jget (.jobj kvs) "error_text" (.jstr ""))))) := by
    simp only [checkError, h]
  refine ⟨?_, ?_, by decide, rfl, by decide, rfl⟩
  · by_cases hz : pyStr v = "0" <;> simp [hck, hz]
  · intro hz
    simp [hck, hz]

/-- C1 witness: `{"error": 0}` succeeds, `{"error": "1"}` fails. -/
theorem transport_success_iff_error_str_zero_witness :
    (∃ p, checkError "test" (.jobj [("error", .jint 0)]) = .ok p)
    ∧ (∃ e, checkError "test" (.jobj [("error", .jstr "1")]) = .error e) :=
  ⟨(transport_success_iff_error_str_zero "test" [("error", .jint 0)]
      (.jint 0) rfl).1.mpr (by decide),
   (transport_success_iff_error_str_zero "test" [("error", .jstr "1")]
      (.jstr "1") rfl).2.1 (by decide)⟩

/-- C2: on a business failure the stripped error text is lower-cased
and substring-matched in source order against the known phrases
("direction not found" → `DirectionNotFoundError`, "method not
supported" → `MethodNotSupportedError`, "no bid exists" →
`BidNotFoundError`, "api disabled" → `APIResponseError`), and any
unmatched text yields a generic `APIResponseError` preserving the raw
text (when non-empty) and the error code; classification is total. -/
theorem transport_error_classification
    (method : String) (kvs : List (String × JVal)) (v : JVal)
    (h : lookupKey kvs "error" = some v) (hfail : pyStr v ≠ "0")
    (t : String)
    (ht : t = pyTrim (pyStr (jget (.jobj kvs) "error_text" (.jstr "")))) :
    (strContains (pyLower t) "direction not found" = true →
      checkError method (.jobj kvs)
        = .error (.directionNotFoundError directionNotFoundMessage
            (some (pyStr v)) method))
    ∧ (strContains (pyLower t) "direction not found" = false →
       strContains (pyLower t) "method not supported" = true →
      checkError method (.jobj kvs)
        = .error (.methodNotSupportedError (methodNotSupportedMessage method)
            (some (pyStr v)) method))
    ∧ (strContains (pyLower t) "direction not found" = false →
       strContains (pyLower t) "method not supported" = false →
       strContains (pyLower t) "no bid exists" = true →
      checkError method (.jobj kvs)
        = .error (.bidNotFoundError bidNotFoundMessage (some (pyStr v)) method))
    ∧ (strContains (pyLower t) "direction not found" = false →
       strContains (pyLower t) "method not supported" = false →
       strContains (pyLower t) "no bid exists" = false →
       strContains (pyLower t) "api disabled" = true →
      checkError method (.jobj kvs)
        = .error (.apiResponseError apiDisabledMessage (some (pyStr v)) method))
    ∧ (strContains (pyLower t) "direction not found" = false →
       strContains (pyLower t) "method not supported" = false →
       strContains (pyLower t) "no bid exists" = false →
       strContains (pyLower t) "api disabled" = false →
      checkError method (.jobj kvs)
        = .error (.apiResponseError
            (if t = "" then unknownErrorMessage (pyStr v) else t)
            (some (pyStr v)) method)) := by
  have hck : checkError method (.jobj kvs)
      = .error (classifyError method (pyStr v) t) := by
    rw [ht]
    simp only [checkError, h]
    rw [if_neg hfail]
  refine ⟨?_, ?_, ?_, ?_, ?_⟩ <;>
    · intros
      simp_all [hck, classifyError]

/-- C2 witness: an upstream text containing "method not supported" is
classified as `MethodNotSupportedError` with code and method kept. -/
theorem transport_error_classification_witness :
    checkError "pay_bid" (.jobj [("error", .jint 1),
        ("error_text", .jstr " Sorry, Method NOT Supported ")])
      = .error (.methodNotSupportedError (methodNotSupportedMessage "pay_bid")
          (some "1") "pay_bid") :=
  (transport_error_classification "pay_bid"
      [("error", .jint 1), ("error_text", .jstr " Sorry, Method NOT Supported ")]
      (.jint 1) rfl (by decide) "Sorry, Method NOT Supported" (by decide)).2.1
    (by decide) (by decide)

/-- C9: the field-collection normalizer maps a keyed map to its ordered
values, leaves a sequence unchanged, maps anything else to the empty
sequence, is idempotent, and sends a keyed map and the list of its
values to the same sequence. -/
theorem normalize_fields_shapes :
    (∀ kvs, normalizeFields (.jobj kvs) = kvs.map Prod.snd)
    ∧ (∀ xs, normalizeFields (.jlist xs) = xs)
    ∧ normalizeFields .jnull = []
    ∧ (∀ b, normalizeFields (.jbool b) = [])
    ∧ (∀ n, normalizeFields (.jint n) = [])
    ∧ (∀ s, normalizeFields (.jstr s) = [])
    ∧ (∀ x, normalizeFields (.jlist (normalizeFields x)) = normalizeFields x)
    ∧ (∀ kvs, normalizeFields (.jobj kvs) = normalizeFields (.jlist (kvs.map Prod.snd))) := by
  refine ⟨fun kvs => rfl, fun xs => rfl, rfl, fun b => rfl, fun n => rfl,
    fun s => rfl, ?_, fun kvs => rfl⟩
  intro x
  cases x <;> rfl

/-- C5: for every `DirectionInfo`, `required_fields` and
`optional_fields` partition `all_fields` (union up to permutation,
disjoint), membership in `required_fields` is decided by stringifying
the `req` attribute and comparing to `"1"`, so integer `1` and string
`"1"` both mean required and an absent `req` means optional. -/
theorem direction_fields_partition (d : DirectionInfo) :
    (d.required_fields ++ d.optional_fields).Perm d.all_fields
    ∧ (∀ f, f ∈ d.required_fields ↔ f ∈ d.all_fields ∧ fieldReq f = true)
    ∧ (∀ f, f ∈ d.optional_fields ↔ f ∈ d.all_fields ∧ fieldReq f = false)
    ∧ (∀ f, ¬(f ∈ d.required_fields ∧ f ∈ d.optional_fields))
    ∧ fieldReq (.jobj [("req", .jint 1)]) = true
    ∧ fieldReq (.jobj [("req", .jstr "1")]) = true
    ∧ fieldReq (.jobj []) = false := by
  refine ⟨List.filter_append_perm _ _, ?_, ?_, ?_, by decide, by decide, by decide⟩
  · intro f
    simp [DirectionInfo.required_fields, List.mem_filter]
  · intro f
    simp [DirectionInfo.optional_fields, List.mem_filter]
  · rintro f ⟨h1, h2⟩
    rw [DirectionInfo.required_fields, List.mem_filter] at h1
    rw [DirectionInfo.optional_fields, List.mem_filter] at h2
    simp [h1.2] at h2

/-- C5 witness: the partition at a concrete direction. -/
theorem direction_fields_partition_witness :
    ((buildDirectionInfo (.jobj [("give_fields",
        .jlist [.jobj [("name", .jstr "a"), ("req", .jint 1)],
                .jobj [("name", .jstr "b")]])])).required_fields ++
     (buildDirectionInfo (.jobj [("give_fields",
        .jlist [.jobj [("name", .jstr "a"), ("req", .jint 1)],
                .jobj [("name", .jstr "b")]])])).optional_fields).Perm
      (buildDirectionInfo (.jobj [("give_fields",
        .jlist [.jobj [("name", .jstr "a"), ("req", .jint 1)],
                .jobj [("name", .jstr "b")]])])).all_fields :=
  (direction_fields_partition _).1

/-- C10: the capability accessors of a `BidResult` whose `pay` and
`cancel` entries are strings or absent are mutually exclusive:
`payment_url` is set exactly when the pay value starts with `"http"`,
`can_pay_via_api` holds exactly when it equals `"api"`, so the two never
hold together; symmetrically for cancel. -/
theorem bid_capability_mutual_exclusion (b : BidResult)
    (hpay : ∀ v, lookupKey b.api_actions "pay" = some v → ∃ s, v = .jstr s)
    (hcancel : ∀ v, lookupKey b.api_actions "cancel" = some v → ∃ s, v = .jstr s) :
    (b.payment_url.isSome = pyStartsWith (objGetStr b.api_actions "pay" "") "http")
    ∧ (b.can_pay_via_api = true ↔ objGetStr b.api_actions "pay" "" = "api")
    ∧ ¬(b.can_pay_via_api = true ∧ b.payment_url.isSome = true)
    ∧ (b.cancel_url.isSome = pyStartsWith (objGetStr b.api_actions "cancel" "") "http")
    ∧ (b.can_cancel_via_api = true ↔ objGetStr b.api_actions "cancel" "" = "api")
    ∧ ¬(b.can_cancel_via_api = true ∧ b.cancel_url.isSome = true) := by
  have hp1 : b.payment_url.isSome
      = pyStartsWith (objGetStr b.api_actions "pay" "") "http" := by
    rw [BidResult.payment_url]
    cases hs : pyStartsWith (objGetStr b.api_actions "pay" "") "http" <;> simp [hs]
  have hp2 : b.can_pay_via_api = true ↔ objGetStr b.api_actions "pay" "" = "api" := by
    rw [BidResult.can_pay_via_api, objGetStr]
    rcases hl : lookupKey b.api_actions "pay" with _ | w
    · simp
    · obtain ⟨s, rfl⟩ := hpay w hl
      simp
  have hc1 : b.cancel_url.isSome
      = pyStartsWith (objGetStr b.api_actions "cancel" "") "http" := by
    rw [BidResult.cancel_url]
    cases hs : pyStartsWith (objGetStr b.api_actions "cancel" "") "http" <;> simp [hs]
  have hc2 : b.can_cancel_via_api = true ↔ objGetStr b.api_actions "cancel" "" = "api" := by
    rw [BidResult.can_cancel_via_api, objGetStr]
    rcases hl : lookupKey b.api_actions "cancel" with _ | w
    · simp
    · obtain ⟨s, rfl⟩ := hcancel w hl
      simp
  refine ⟨hp1, hp2, ?_, hc1, hc2, ?_⟩
  · rintro ⟨h1, h2⟩
    rw [hp1, hp2.mp h1] at h2
    exact absurd h2 (by decide)
  · rintro ⟨h1, h2⟩
    rw [hc1, hc2.mp h1] at h2
    exact absurd h2 (by decide)

/-- C10 witness: an order payable via API has no payment URL. -/
theorem bid_capability_mutual_exclusion_witness :
    ¬((buildBidResult (.jobj [("api_actions", .jobj [("pay", .jstr "api")])])).can_pay_via_api = true
      ∧ (buildBidResult (.jobj [("api_actions", .jobj [("pay", .jstr "api")])])).payment_url.isSome = true) :=
  (bid_capability_mutual_exclusion
      (buildBidResult (.jobj [("api_actions", .jobj [("pay", .jstr "api")])]))
      (by intro v hv; exact ⟨"api", by simpa [buildBidResult, jget, lookupKey] using hv.symm⟩)
      (by intro v hv; simp [buildBidResult, jget, lookupKey] at hv)).2.2.1

/-- C6: `calculate` maps the side value through the fixed
`{give: 1, get: 2, give_com: 3, get_com: 4}` table into the outgoing
`calc_action` parameter, fails locally with `ValidationError` and zero
requests on any other side value, and sets `changed` exactly when the
the `changed` value of the payload stringifies to `"1"`. -/
theorem calculate_action_and_changed :
    (actionMap "give" = some 1 ∧ actionMap "get" = some 2
      ∧ actionMap "give_com" = some 3 ∧ actionMap "get_com" = some 4)
    ∧ (∀ did amt act cd env n, actionMap act = some n →
        (calculate did amt act cd env).2
            = [("get_calc", some (calcParams did amt n cd))]
        ∧ ("calc_action", JVal.jint n) ∈ calcParams did amt n cd)
    ∧ (∀ did amt act cd env, actionMap act = none →
        calculate did amt act cd env
          = (.error (.validationError (invalidActionMessage act)), []))
    ∧ (∀ did amt act cd env n d, actionMap act = some n →
        checkError "get_calc" (env "get_calc" (some (calcParams did amt n cd))) = .ok d →
        (calculate did amt act cd env).1 = .ok (buildCalcResult d)
        ∧ ((buildCalcResult d).changed = true
            ↔ pyStr (jget d "changed" (.jstr "0")) = "1")) := by
  refine ⟨by refine ⟨rfl, rfl, rfl, rfl⟩, ?_, ?_, ?_⟩
  · intro did amt act cd env n ha
    constructor
    · simp only [calculate, ha, mBind, mRequest, mPure]
      rcases hck : checkError "get_calc" (env "get_calc" (some (calcParams did amt n cd)))
        with e | v <;> simp [hck]
    · rcases cd with _ | c <;> simp [calcParams]
  · intro did amt act cd env ha
    simp [calculate, ha, mThrow]
  · intro did amt act cd env n d ha hck
    constructor
    · simp [calculate, ha, mBind, mRequest, mPure, hck]
    · simp [buildCalcResult]

/-- C6 witness: side "give" issues one `get_calc` request with
`calc_action = 1` and reads `changed` from the payload. -/
theorem calculate_action_and_changed_witness :
    (calculate (.jint 7) (.jint 100) "give" none (fun _ _ =>
        .jobj [("error", .jint 0), ("data", .jobj [("changed", .jstr "1")])])).1
      = .ok (buildCalcResult (.jobj [("changed", .jstr "1")])) :=
  ((calculate_action_and_changed).2.2.2 (.jint 7) (.jint 100) "give" none
    (fun _ _ => .jobj [("error", .jint 0), ("data", .jobj [("changed", .jstr "1")])])
    1 (.jobj [("changed", .jstr "1")]) rfl rfl).1

/-- C7: `find_direction` returns the first direction in list order
satisfying the match predicate (give query a case-insensitive substring
of the give title, every whitespace token of the get query a
case-insensitive substring of the get title), returns none exactly when
no direction matches, and in particular give="RUB", get="USDT TRC20"
matches titles "Rubles RUB" / "USDT (TRC20)". -/
theorem find_direction_first_match :
    (∀ dirs g c d, findDirection dirs g c = some d →
        directionMatches g c d = true
        ∧ ∃ pre post, dirs = pre ++ d :: post
            ∧ ∀ x ∈ pre, directionMatches g c x = false)
    ∧ (∀ dirs g c, findDirection dirs g c = none
        ↔ ∀ d ∈ dirs, directionMatches g c d = false)
    ∧ findDirection
        [.jobj [("currency_give_title", .jstr "Rubles RUB"),
                ("currency_get_title", .jstr "USDT (TRC20)")]]
        "RUB" "USDT TRC20"
      = some (.jobj [("currency_give_title", .jstr "Rubles RUB"),
                     ("currency_get_title", .jstr "USDT (TRC20)")]) := by
  refine ⟨fun dirs g c d h => find?_first _ dirs d h, fun dirs g c => ?_, ?_⟩
  · simp [findDirection, List.find?_eq_none]
  · rfl

/-- C7 witness: a list with no matching direction yields none. -/
theorem find_direction_first_match_witness :
    findDirection [.jint 3, .jobj [("currency_give_title", .jstr "Bitcoin BTC")]]
      "RUB" "USDT" = none :=
  (find_direction_first_match.2.1
      [.jint 3, .jobj [("currency_give_title", .jstr "Bitcoin BTC")]]
      "RUB" "USDT").mpr (by decide)

/-- C8: `safe_pay` calls `pay_bid` exactly when the pay
capability of the order equals `"api"`; otherwise it raises
`PaymentNotAvailableError` locally with zero requests, with a message
containing the payment URL when the pay value is an HTTP URL, and a
distinct no-path message when no payment URL exists. -/
theorem safe_pay_guard (bid : BidResult) (env : Env) :
    (lookupKey bid.api_actions "pay" = some (.jstr "api") →
      safePay bid env
        = (checkError "pay_bid" (env "pay_bid" (some [("hash", bid.hash)])),
           [("pay_bid", some [("hash", bid.hash)])]))
    ∧ (lookupKey bid.api_actions "pay" ≠ some (.jstr "api") →
        (∃ m, (safePay bid env).1 = .error (.paymentNotAvailableError m))
        ∧ (safePay bid env).2 = [])
    ∧ (∀ s, lookupKey bid.api_actions "pay" = some (.jstr s) →
        pyStartsWith s "http" = true →
        (safePay bid env).1
            = .error (.paymentNotAvailableError (payUnavailableMerchantMessage s))
        ∧ strContains (payUnavailableMerchantMessage s) s = true)
    ∧ (bid.payment_url = none →
       lookupKey bid.api_actions "pay" ≠ some (.jstr "api") →
        (safePay bid env).1
          = .error (.paymentNotAvailableError
              (payUnavailableNoPathMessage (lookupKey bid.api_actions "pay")))) := by
  refine ⟨?_, ?_, ?_, ?_⟩
  · intro h
    have hc : bid.can_pay_via_api = true := by
      rw [BidResult.can_pay_via_api, h]
      simp
    simp [safePay, hc, payBid, mRequest]
  · intro h
    have hc : bid.can_pay_via_api = false := by
      rw [BidResult.can_pay_via_api]
      rcases hl : lookupKey bid.api_actions "pay" with _ | w
      · rfl
      · cases w <;> simp_all
    rcases hu : bid.payment_url with _ | u <;>
      simp [safePay, hc, hu, mThrow]
  · intro s hl hs
    have hsne : s ≠ "api" := by
      intro hs'
      rw [hs'] at hs
      exact absurd hs (by decide)
    have hc : bid.can_pay_via_api = false := by
      rw [BidResult.can_pay_via_api, hl]
      simp [hsne]
    have hu : bid.payment_url = some s := by
      rw [BidResult.payment_url, objGetStr, hl]
      simp [hs]
    refine ⟨by simp [safePay, hc, hu, mThrow], ?_⟩
    apply strContains_of_infix
    refine ⟨("Оплата через API недоступна — используется мерчант. Пользователь должен оплатить по ссылке: ").data,
      (". Статус обновится автоматически после поступления средств.").data, ?_⟩
    simp [payUnavailableMerchantMessage, String.data_append]
  · intro hu hne
    have hc : bid.can_pay_via_api = false := by
      rw [BidResult.can_pay_via_api]
      rcases hl : lookupKey bid.api_actions "pay" with _ | w
      · rfl
      · cases w <;> simp_all
    simp [safePay, hc, hu, mThrow]

/-- C8 witness: a merchant-payment order yields a local
`PaymentNotAvailableError` whose message carries the URL. -/
theorem safe_pay_guard_witness :
    (safePay (buildBidResult (.jobj [("api_actions",
        .jobj [("pay", .jstr "http://pay.example/42")])]))
      (fun _ _ => .jnull)).1
      = .error (.paymentNotAvailableError
          (payUnavailableMerchantMessage "http://pay.example/42"))
    ∧ strContains (payUnavailableMerchantMessage "http://pay.example/42")
        "http://pay.example/42" = true :=
  (safe_pay_guard (buildBidResult (.jobj [("api_actions",
      .jobj [("pay", .jstr "http://pay.example/42")])]))
    (fun _ _ => .jnull)).2.2.1 "http://pay.example/42" rfl rfl

/-- The `ValidationError` message of `full_exchange` contains every
missing field name. -/
theorem strContains_validationMsg (missing : List String) (reqs : List JVal)
    (n : String) (hn : n ∈ missing) :
    strContains (validationMsg missing reqs) n = true := by
  apply strContains_of_infix
  refine (infix_joinWith ", " missing n hn).trans ?_
  refine ⟨("Не заполнены обязательные поля: ").data,
    (". Все обязательные поля: " ++ requiredFieldsRepr reqs).data, ?_⟩
  simp [validationMsg, String.data_append]

/-- C3: when validation is enabled and some required fields are absent
or empty in the user mapping, `full_exchange` fails with a
`ValidationError` whose message is built from the full list of missing
names (hence contains every one of them), and no `create_bid` request is
ever issued. -/
theorem full_exchange_missing_fields_validation
    (env : Env) (did amt : JVal) (fields : List (String × String))
    (act : String) (api_id cb : Option String)
    (c : CalcResult) (dir : DirectionInfo)
    (hcalc : (calculate did amt act none env).1 = .ok c)
    (hdir : (getDirection did env).1 = .ok dir)
    (hmiss : dir.validate_fields fields ≠ []) :
    (fullExchange did amt fields act api_id cb true env).1
        = .error (.validationError
            (validationMsg (dir.validate_fields fields) dir.required_fields))
    ∧ (∀ n ∈ dir.validate_fields fields,
        strContains (validationMsg (dir.validate_fields fields)
          dir.required_fields) n = true)
    ∧ (∀ r ∈ (fullExchange did amt fields act api_id cb true env).2,
        r.1 ≠ "create_bid") := by
  have hlog1 := calculate_log did amt act none env
  have hlog2 := getDirection_log did env
  obtain ⟨l1, hp⟩ : ∃ l1, calculate did amt act none env = (.ok c, l1) := by
    rcases hq : calculate did amt act none env with ⟨r1, l1⟩
    rw [hq] at hcalc
    exact ⟨l1, by rw [show r1 = Except.ok c from hcalc]⟩
  obtain ⟨l2, hq⟩ : ∃ l2, getDirection did env = (.ok dir, l2) := by
    rcases hq : getDirection did env with ⟨r2, l2⟩
    rw [hq] at hdir
    exact ⟨l2, by rw [show r2 = Except.ok dir from hdir]⟩
  have hempty : (dir.validate_fields fields).isEmpty = false := by
    rcases h : dir.validate_fields fields with _ | _
    · exact absurd h hmiss
    · rfl
  have hfe : fullExchange did amt fields act api_id cb true env
      = (.error (.validationError
            (validationMsg (dir.validate_fields fields) dir.required_fields)),
         l1 ++ (l2 ++ [])) := by
    simp [fullExchange, mBind, hp, hq, hempty, mThrow]
  refine ⟨by rw [hfe], fun n hn => strContains_validationMsg _ _ n hn, ?_⟩
  intro r hr
  rw [hfe] at hr
  simp only [List.append_nil, List.mem_append] at hr
  rcases hr with h | h
  · have h1 : r.1 = "get_calc" := hlog1 r (by rw [hp]; exact h)
    rw [h1]
    decide
  · have h2 : r.1 = "get_direction" := hlog2 r (by rw [hq]; exact h)
    rw [h2]
    decide

/-- C3 witness: with two of the required fields missing, the message
lists both and only calculation and direction-detail requests were
made. -/
theorem full_exchange_missing_fields_validation_witness :
    (fullExchange (.jint 7) (.jint 100) [] "give" none none true envMissingFields).1
      = .error (.validationError (validationMsg
          ((buildDirectionInfo dirDataMissing).validate_fields [])
          (buildDirectionInfo dirDataMissing).required_fields)) :=
  (full_exchange_missing_fields_validation envMissingFields (.jint 7) (.jint 100)
      [] "give" none none (buildCalcResult (.jobj [("changed", .jstr "0")]))
      (buildDirectionInfo dirDataMissing) rfl rfl (by decide)).1

/-- C4 counterexample: `full_exchange` raises its missing-fields
`ValidationError` only after the `get_calc` and `get_direction` HTTP
requests have been issued, so "zero HTTP requests whenever a
ValidationError is raised" fails on this operation. -/
theorem validation_before_network_counterexample :
    isValidationResult
        (fullExchange (.jint 7) (.jint 100) [] "give" none none true envMissingFields).1
      = true
    ∧ (fullExchange (.jint 7) (.jint 100) [] "give" none none true
        envMissingFields).2.map Prod.fst = ["get_calc", "get_direction"] := by
  exact ⟨rfl, rfl⟩

/-- `create_bid` with a valid action never produces a
`ValidationError`. -/
theorem createBid_fst_ne_validation
    (did amt : JVal) (fields : List (String × String)) (act : String)
    (api_id : Option String) (partner : Option Int) (cb : Option String)
    (env : Env) (n : Int) (m : String) (ha : actionMap act = some n) :
    (createBid did amt fields act api_id partner cb env).1
      ≠ .error (.validationError m) := by
  simp only [createBid, ha, mBind, mRequest, mPure]
  rcases hck : checkError "create_bid"
      (env "create_bid" (some (createBidParams did amt n fields api_id partner cb)))
    with e | d
  · intro h
    rw [show e = ApiErr.validationError m by simpa using h] at hck
    exact checkError_ne_validation _ _ _ hck
  · simp

/-- C4 (amended): the `ValidationError` for a bad side value
(`calculate`, `create_bid`) and for a missing hash/id
(`get_bid_status`) is raised with zero requests issued by that
operation; the missing-required-fields `ValidationError` of `full_exchange`
is raised only after the calculation and direction-detail requests, but
always before any order-creation request: whenever `full_exchange`
raises a `ValidationError`, no `create_bid` request has been issued. -/
theorem local_validation_zero_requests_amended :
    (∀ did amt act cd env, actionMap act = none →
        calculate did amt act cd env
          = (.error (.validationError (invalidActionMessage act)), []))
    ∧ (∀ did amt fields act api_id partner cb env, actionMap act = none →
        createBid did amt fields act api_id partner cb env
          = (.error (.validationError (invalidActionMessage act)), []))
    ∧ (∀ h b env, truthyOptStr h = false → truthyOptStr b = false →
        getBidStatus h b env
          = (.error (.validationError "Нужно указать hash или bid_id"), []))
    ∧ (∀ did amt fields act api_id cb validate env m,
        (fullExchange did amt fields act api_id cb validate env).1
          = .error (.validationError m) →
        ∀ r ∈ (fullExchange did amt fields act api_id cb validate env).2,
          r.1 ≠ "create_bid") := by
  refine ⟨?_, ?_, ?_, ?_⟩
  · intro did amt act cd env ha
    simp [calculate, ha, mThrow]
  · intro did amt fields act api_id partner cb env ha
    simp [createBid, ha, mThrow]
  · intro h b env h1 h2
    simp [getBidStatus, h1, h2, mThrow]
  · intro did amt fields act api_id cb validate env m hval r hr
    cases ha : actionMap act with
    | none =>
      have hfe : fullExchange did amt fields act api_id cb validate env
          = (.error (.validationError (invalidActionMessage act)), []) := by
        simp [fullExchange, mBind, calculate, ha, mThrow]
      rw [hfe] at hr
      simp at hr
    | some n =>
      rcases hck : checkError "get_calc"
          (env "get_calc" (some (calcParams did amt n none))) with e | dcalc
      · have hfe : fullExchange did amt fields act api_id cb validate env
            = (.error e, [("get_calc", some (calcParams did amt n none))]) := by
          simp [fullExchange, mBind, calculate, ha, mRequest, mPure, hck]
        rw [hfe] at hr
        simp at hr
        rw [hr]
        simp
      · have hcalc : calculate did amt act none env
            = (.ok (buildCalcResult dcalc),
               [("get_calc", some (calcParams did amt n none))]) := by
          simp [calculate, ha, mBind, mRequest, mPure, hck]
        cases validate with
        | false =>
          have hfst : (fullExchange did amt fields act api_id cb false env).1
              = (createBid did amt fields act api_id none cb env).1 := by
            simp [fullExchange, mBind, hcalc]
          rw [hfst] at hval
          exact absurd hval
            (createBid_fst_ne_validation did amt fields act api_id none cb env n m ha)
        | true =>
          rcases hck3 : checkError "get_direction"
              (env "get_direction" (some [("direction_id", .jstr (pyStr did))]))
            with e3 | d3
          · have hfe : fullExchange did amt fields act api_id cb true env
                = (.error e3,
                   [("get_calc", some (calcParams did amt n none)),
                    ("get_direction", some [("direction_id", .jstr (pyStr did))])]) := by
              simp [fullExchange, mBind, hcalc, getDirection, mRequest, mPure, hck3]
            rw [hfe] at hr
            simp at hr
            rcases hr with h | h <;> rw [h] <;> simp
          · have hdir : getDirection did env
                = (.ok (buildDirectionInfo d3),
                   [("get_direction", some [("direction_id", .jstr (pyStr did))])]) := by
              simp [getDirection, mBind, mRequest, mPure, hck3]
            cases hm : ((buildDirectionInfo d3).validate_fields fields).isEmpty with
            | true =>
              have hfst : (fullExchange did amt fields act api_id cb true env).1
                  = (createBid did amt fields act api_id none cb env).1 := by
                simp [fullExchange, mBind, hcalc, hdir, hm]
              rw [hfst] at hval
              exact absurd hval
                (createBid_fst_ne_validation did amt fields act api_id none cb env n m ha)
            | false =>
              have hfe : fullExchange did amt fields act api_id cb true env
                  = (.error (.validationError
                        (validationMsg ((buildDirectionInfo d3).validate_fields fields)
                          (buildDirectionInfo d3).required_fields)),
                     [("get_calc", some (calcParams did amt n none)),
                      ("get_direction", some [("direction_id", .jstr (pyStr did))])]) := by
                simp [fullExchange, mBind, hcalc, hdir, hm, mThrow]
              rw [hfe] at hr
              simp at hr
              rcases hr with h | h <;> rw [h] <;> simp

/-- C4 (amended) witness: `get_bid_status` with neither hash nor id
fails locally with zero requests. -/
theorem local_validation_zero_requests_amended_witness :
    getBidStatus none none (fun _ _ => .jnull)
      = (.error (.validationError "Нужно указать hash или bid_id"), []) :=
  local_validation_zero_requests_amended.2.2.1 none none
    (fun _ _ => .jnull) rfl rfl
